import Mathlib

/-!
Verification of the SmartNotesLLM natural-language notes core: the heuristic
intent classifier, the intent-resolver facade around the LLM client
(backend/agent.py), and the note-reference resolution plus the
natural-language request handler (backend/routes.py), embedded shallowly.
-/

namespace SmartNotes

/-- JSON-like values, modelling Python objects as produced by `json.loads`
and the plain dicts the agent passes around. -/
inductive Json where
  | jnull
  | jbool (b : Bool)
  | jnum (n : Int)
  | jstr (s : String)
  | jarr (elems : List Json)
  | jobj (fields : List (String × Json))

/-- Python `dict.get(key, dflt)` over the field list of an object. -/
def jget (fields : List (String × Json)) (key : String) (dflt : Json) : Json :=
  match fields.lookup key with
  | some v => v
  | none => dflt

/-- Python truthiness of a JSON-like value. -/
def jtruthy : Json → Bool
  | .jnull => false
  | .jbool b => b
  | .jnum n => n != 0
  | .jstr s => s != ""
  | .jarr l => !l.isEmpty
  | .jobj l => !l.isEmpty

/-- Python `value == "s"` when the right-hand side is a string literal:
true only for equal strings, false for any non-string value. -/
def jeqStr (j : Json) (s : String) : Bool :=
  match j with
  | .jstr t => t == s
  | _ => false

/-- Values of type Optional int as stored into a dict slot. -/
def jsonOfOptNat : Option Nat → Json
  | some n => .jnum n
  | none => .jnull

/-- ASCII whitespace recognised by Python `\s` / `str.strip`. -/
def isPySpace (c : Char) : Bool :=
  c = ' ' || c = '\t' || c = '\n' || c = '\r' || c = '\x0b' || c = '\x0c'

/-- The regex character class `[\s#-]` from `_extract_note_id`. -/
def isSepChar (c : Char) : Bool :=
  isPySpace c || c = '#' || c = '-'

/-- After the literal `note`, the regex continues `[\s#-]*(\d+)`: skip the
separator run greedily, then require a digit and capture the maximal digit
run.  (No separator is a digit, so the greedy scan never backtracks.) -/
def sepsThenDigits : List Char → Option (List Char)
  | [] => none
  | c :: rest =>
    if isSepChar c then sepsThenDigits rest
    else if c.isDigit then some ((c :: rest).takeWhile Char.isDigit)
    else none

/-- Search of the regex pattern, `re.search(r"note[\s#-]*(\d+)", text)`:
the captured digit group of the
leftmost position at which the pattern matches, if any — at each start
position the pattern matches iff the text continues with the literal
`note` and then separators-then-digits. -/
def firstNoteMatch : List Char → Option (List Char)
  | [] => none
  | c :: rest =>
    match
      (if (c :: rest).take 4 = ['n', 'o', 't', 'e'] then
        sepsThenDigits ((c :: rest).drop 4)
      else none) with
    | some ds => some ds
    | none => firstNoteMatch rest

/-- Python `int()` applied to the captured group, as a fallible parse:
`none` models `ValueError`. -/
def parseDigits (l : List Char) : Option Nat :=
  if l.isEmpty then none
  else if l.all Char.isDigit then
    some (l.foldl (fun a c => a * 10 + (c.toNat - 48)) 0)
  else none

/-- The value computed by `NotesAgent._extract_note_id`. -/
def extractNoteId (text : List Char) : Option Nat :=
  (firstNoteMatch text).bind parseDigits

/-- The method `NotesAgent._extract_note_id` with its `try`/`except` made explicit:
`Except.error` would be an uncaught exception escaping the extractor, and
the `except ValueError: return None` branch yields `.ok none`. -/
def extractNoteIdTry (text : List Char) : Except Unit (Option Nat) :=
  match firstNoteMatch text with
  | some ds =>
    match parseDigits ds with
    | some n => .ok (some n)
    | none => .ok none
  | none => .ok none

/-- Character-wise `str.lower()` (ASCII fragment). -/
def lowerS (s : String) : String :=
  String.mk (s.toList.map Char.toLower)

/-- Substring containment over character lists (Python `pat in hay`). -/
def containsSubL (pat : List Char) : List Char → Bool
  | [] => pat.isEmpty
  | c :: rest => pat.isPrefixOf (c :: rest) || containsSubL pat rest

/-- Python `pat in hay` on strings. -/
def containsSub (hay pat : String) : Bool :=
  containsSubL pat.toList hay.toList

/-- Python `s.split(sep, 1)` for nonempty `sep`: `some (before, after)`
when `sep` occurs in `s`, `none` when it does not (so that indexing the
result at `[1]` would raise `IndexError`). -/
def splitOnce (sep : List Char) : List Char → Option (List Char × List Char)
  | [] => none
  | c :: rest =>
    if sep.isPrefixOf (c :: rest) then some ([], (c :: rest).drop sep.length)
    else
      match splitOnce sep rest with
      | some (b, a) => some (c :: b, a)
      | none => none

/-- Python `str.strip()` (ASCII whitespace). -/
def pyStrip (l : List Char) : List Char :=
  ((l.dropWhile isPySpace).reverse.dropWhile isPySpace).reverse

/-- Python `str.capitalize()`: first character uppercased, the rest
lowercased. -/
def pyCapitalize : List Char → List Char
  | [] => []
  | c :: rest => c.toUpper :: rest.map Char.toLower

def createKws : List String := ["create", "add", "new", "remember"]
def updateKws : List String := ["update", "change", "edit"]
def deleteKws : List String := ["delete", "remove", "clear", "trash"]
def readKws : List String := ["show", "view", "read", "detail"]
def listKws : List String := ["list", "all", "display"]

/-- Python `any(word in lowered for word in kws)`. -/
def hasAnyKw (lowered : String) (kws : List String) : Bool :=
  kws.any (fun w => containsSub lowered w)

/-- Python truthiness of the `Optional[int]` note id (`None` and `0` are
falsy). -/
def noteIdTruthy : Option Nat → Bool
  | some n => n != 0
  | none => false

/-- The summary assigned in the update branch of `_fallback_parse`. -/
def updateSummary (noteId : Option Nat) : String :=
  if noteIdTruthy noteId then
    "Update note heuristic for note " ++ toString (noteId.getD 0) ++ "."
  else "Update note heuristic; please specify details."

/-- The summary assigned in the delete branch of `_fallback_parse`. -/
def deleteSummary (noteId : Option Nat) : String :=
  if noteIdTruthy noteId then
    "Delete note heuristic for note " ++ toString (noteId.getD 0) ++ "."
  else "Delete note heuristic; please confirm details."

/-- The summary assigned in the read branch of `_fallback_parse`. -/
def readSummary (noteId : Option Nat) : String :=
  if noteIdTruthy noteId then
    "Read note heuristic for note " ++ toString (noteId.getD 0) ++ "."
  else "Listing notes."

/-- The `result` dict of `_fallback_parse`.  The initial literal assigns
the six schema keys in this order; the branch assignments only overwrite
existing keys, so each branch outcome is this list with per-branch values
(`filters` is always `{"topic": None}` and `note_id` the extracted id). -/
def baseIntent (noteId : Option Nat) (action : String) (topic message : Json)
    (summary : String) : List (String × Json) :=
  [("action", .jstr action), ("topic", topic), ("message", message),
   ("note_id", jsonOfOptNat noteId), ("filters", .jobj [("topic", .jnull)]),
   ("summary", .jstr summary)]

/-- The method `NotesAgent._fallback_parse`.  `Except.error` models an uncaught Python
exception: when `" about " in lowered` holds but the original (non-lowered)
`user_query` does not contain `" about "` literally, the expression
`user_query.split(" about ", 1)[1]` raises `IndexError`. -/
def fallbackParse (userQuery : String) : Except Unit (List (String × Json)) :=
  let lowered := lowerS userQuery
  let noteId := extractNoteId lowered.toList
  if hasAnyKw lowered createKws then
    if containsSub lowered " about " then
      match splitOnce (" about ".toList) userQuery.toList with
      | some (_, post) =>
        let topic := String.mk (pyCapitalize (pyStrip post))
        .ok (baseIntent noteId "create" (.jstr topic)
              (.jstr ("Reminder about " ++ topic)) "Created note using heuristic.")
      | none => .error ()
    else
      .ok (baseIntent noteId "create" (.jstr "General") (.jstr userQuery)
            "Created note using heuristic.")
  else if hasAnyKw lowered updateKws then
    .ok (baseIntent noteId "update" .jnull .jnull (updateSummary noteId))
  else if hasAnyKw lowered deleteKws then
    .ok (baseIntent noteId "delete" .jnull .jnull (deleteSummary noteId))
  else if hasAnyKw lowered readKws then
    .ok (baseIntent noteId (if noteIdTruthy noteId then "read" else "list")
          .jnull .jnull (readSummary noteId))
  else if hasAnyKw lowered listKws then
    .ok (baseIntent noteId "list" .jnull .jnull "Listing notes.")
  else
    .ok (baseIntent noteId "list" .jnull .jnull
          "Fallback keyword interpretation; please verify intent.")

/-- Outcome of `NotesAgent._query_llm` as observed by `interpret`: `exn`
for any exception raised inside it (network error or timeout from
`requests.post`, non-2xx status via `raise_for_status`, non-JSON body via
`response.json()`, non-string or non-JSON content via `json.loads`);
`parsed j` when `json.loads(content)` returned the value `j`. -/
inductive LlmOutcome where
  | exn
  | parsed (j : Json)

/-- The `AgentResult` dataclass. -/
structure AgentResult where
  action : Json
  payload : Json

/-- The `except` branch of `interpret`: the fallback dict wrapped as
`AgentResult(action=fallback.get("action", "list"), payload=fallback)`.
An exception raised by `_fallback_parse` itself propagates. -/
def fallbackAgentResult (userQuery : String) : Except Unit AgentResult :=
  match fallbackParse userQuery with
  | .ok fb => .ok ⟨jget fb "action" (.jstr "list"), .jobj fb⟩
  | .error e => .error e

/-- The method `NotesAgent.interpret`.  A parsed non-object reply raises
`AttributeError` at `response_json.get("action", "list")` inside the
`try`, so the `except` clause falls back; a parsed object is accepted
as-is, without validation against the Intent schema. -/
def interpret (llm : LlmOutcome) (userQuery : String) : Except Unit AgentResult :=
  match llm with
  | .exn => fallbackAgentResult userQuery
  | .parsed j =>
    match j with
    | .jobj fields => .ok ⟨jget fields "action" (.jstr "list"), .jobj fields⟩
    | _ => fallbackAgentResult userQuery

/-- A row of the `notes` table (`models.Note`); `last_update` is an
abstract timestamp. -/
structure Note where
  note_id : Nat
  user_id : Nat
  topic : String
  message : String
  last_update : Nat
deriving DecidableEq, Repr

/-- SQL equality of the integer `note_id` column against the payload
value; only integer payload values are modelled (the claims never
exercise a truthy non-integer id). -/
def sqlIdEq (v : Json) (nid : Nat) : Bool :=
  match v with
  | .jnum n => n == (nid : Int)
  | _ => false

/-- Python `str(value)` as interpolated into the ILIKE pattern and the
column assignments; only scalars are modelled (`str()` of lists/dicts is
never reached by the claims). -/
def pyStr : Json → String
  | .jstr s => s
  | .jnum n => toString n
  | .jbool b => if b then "True" else "False"
  | .jnull => "None"
  | _ => ""

/-- SQL LIKE pattern matching as evaluated by the store: `%` matches any
(possibly empty) character sequence, `_` matches exactly one character,
every other pattern character matches itself. -/
def likeMatch : List Char → List Char → Bool
  | [], s => s.isEmpty
  | p :: ps, s =>
    if p = '%' then
      match s with
      | [] => likeMatch ps []
      | _ :: rest => likeMatch ps s || likeMatch (p :: ps) rest
    else
      match s with
      | [] => false
      | c :: rest => (if p = '_' then true else p == c) && likeMatch ps rest
termination_by p s => (p.length, s.length)

/-- The filter `Note.topic.ilike(f"%\x7bpat\x7d%")`: the filter value is
interpolated unescaped, so `%` and `_` inside it stay active as LIKE
wildcards; case-insensitivity is modelled by lowercasing both sides. -/
def ilikeContains (topic pat : String) : Bool :=
  likeMatch ('%' :: (lowerS pat).toList ++ ['%']) (lowerS topic).toList

/-- The helper `routes._resolve_note`.  `fields` is the field list of
`interpretation.payload` (always a Python dict by construction in
`interpret`); `notes` is the store content in its default return order.
`Except.error` models the `AttributeError` raised by
`payload.get("filters", {}).get("topic")` when the `"filters"` value is
present but not a dict.  `.scalars().first()` on the filtered,
unordered query is the first match in store order. -/
def resolveNote (userId : Nat) (fields : List (String × Json))
    (notes : List Note) : Except Unit (Option Note) :=
  let noteId := jget fields "note_id" .jnull
  match jget fields "filters" (.jobj []) with
  | .jobj ffields =>
    let topicFilter := jget ffields "topic" .jnull
    if jtruthy noteId then
      .ok (notes.find? fun n => n.user_id == userId && sqlIdEq noteId n.note_id)
    else if jtruthy topicFilter then
      .ok (notes.find? fun n =>
        n.user_id == userId && ilikeContains n.topic (pyStr topicFilter))
    else
      .ok none
  | _ => .error ()

/-- The fields `serialize_note` exposes through `NoteResponse`
(`display_number` is never set on the natural-language path). -/
structure NoteOut where
  note_id : Nat
  topic : String
  message : String
  last_update : Nat
deriving DecidableEq, Repr

def serializeNote (n : Note) : NoteOut :=
  ⟨n.note_id, n.topic, n.message, n.last_update⟩

/-- The `result` value of a `handle_nl_query` response: a serialized note,
the `{"status": "deleted", "note_id": ...}` object, or the listing. -/
inductive NlResult where
  | note (n : NoteOut)
  | deleted (note_id : Nat)
  | listing (ns : List NoteOut)
deriving DecidableEq, Repr

/-- A `handle_nl_query` HTTP outcome: the 404 `{"error": "not-found"}`
response, or a 200 body `{action, agent_summary, result, dry_run}`. -/
inductive NlOutcome where
  | notFound
  | ok (action : Json) (summary : Json) (result : NlResult) (dryRun : Bool)

/-- Autoincrement id assignment for an inserted row. -/
def nextNoteId (notes : List Note) : Nat :=
  (notes.map Note.note_id).foldr max 0 + 1

/-- Sorting for `ORDER BY last_update DESC` (insertion sort; ties keep store order,
which SQL leaves unspecified — no claim depends on tie order). -/
def insertDesc (n : Note) : List Note → List Note
  | [] => [n]
  | m :: rest =>
    if n.last_update ≥ m.last_update then n :: m :: rest
    else m :: insertDesc n rest

def sortByLastUpdateDesc : List Note → List Note
  | [] => []
  | n :: rest => insertDesc n (sortByLastUpdateDesc rest)

/-- The route `routes.handle_nl_query` after `agent.interpret`: branch dispatch and
store mutation.  `query` is the validated request query (used as the
default create message), `dryRun` is `request.args.get("dry_run") == "1"`,
`now` models `func.now()` at mutation time, and `notes` is the full store
in default order.  Returns the HTTP outcome plus the store after the
request; `Except.error` models an exception escaping the handler (from
`_resolve_note`, or `payload.get` on a non-dict payload, which `interpret`
never produces). -/
def handleNlQuery (userId : Nat) (interp : AgentResult) (query : String)
    (dryRun : Bool) (now : Nat) (notes : List Note) :
    Except Unit (NlOutcome × List Note) :=
  let action := interp.action
  match interp.payload with
  | .jobj fields =>
    let summary := jget fields "summary" (.jstr "")
    if jeqStr action "create" then
      let topicV := jget fields "topic" .jnull
      let msgV := jget fields "message" .jnull
      let topic := if jtruthy topicV then pyStr topicV else "General"
      let msg := if jtruthy msgV then pyStr msgV else query
      let note : Note := ⟨nextNoteId notes, userId, topic, msg, now⟩
      .ok (.ok action summary (.note (serializeNote note)) dryRun, notes ++ [note])
    else if jeqStr action "read" then
      match resolveNote userId fields notes with
      | .error e => .error e
      | .ok none => .ok (.notFound, notes)
      | .ok (some n) => .ok (.ok action summary (.note (serializeNote n)) dryRun, notes)
    else if jeqStr action "update" then
      match resolveNote userId fields notes with
      | .error e => .error e
      | .ok none => .ok (.notFound, notes)
      | .ok (some n) =>
        if dryRun then
          .ok (.ok action summary (.note (serializeNote n)) true, notes)
        else
          let topicV := jget fields "topic" .jnull
          let msgV := jget fields "message" .jnull
          let n2 : Note :=
            { n with
              topic := if jtruthy topicV then pyStr topicV else n.topic
              message := if jtruthy msgV then pyStr msgV else n.message
              last_update := now }
          .ok (.ok action summary (.note (serializeNote n2)) dryRun,
               notes.map fun m => if m == n then n2 else m)
    else if jeqStr action "delete" then
      match resolveNote userId fields notes with
      | .error e => .error e
      | .ok none => .ok (.notFound, notes)
      | .ok (some n) =>
        if dryRun then
          .ok (.ok action summary (.note (serializeNote n)) true, notes)
        else
          .ok (.ok action summary (.deleted n.note_id) dryRun,
               notes.filter fun m => m != n)
    else
      .ok (.ok action summary
            (.listing ((sortByLastUpdateDesc
              (notes.filter fun m => m.user_id == userId)).map serializeNote))
            dryRun, notes)
  | _ => .error ()

/-- The five enumerated actions of the Intent schema. -/
def fiveActions : List String := ["create", "read", "update", "delete", "list"]

lemma jget_baseIntent_action (noteId : Option Nat) (a : String) (t m : Json)
    (s : String) (d : Json) :
    jget (baseIntent noteId a t m s) "action" d = .jstr a := rfl

lemma jget_baseIntent_summary (noteId : Option Nat) (a : String) (t m : Json)
    (s : String) (d : Json) :
    jget (baseIntent noteId a t m s) "summary" d = .jstr s := rfl

lemma str_append_ne_empty (x y : String) (hx : x ≠ "") : x ++ y ≠ "" := by
  obtain ⟨xs⟩ := x
  obtain ⟨ys⟩ := y
  intro h
  apply hx
  have hdata : xs ++ ys = [] := congrArg String.data h
  rcases List.append_eq_nil.mp hdata with ⟨h1, _⟩
  simp [h1]

lemma updateSummary_ne_empty (noteId : Option Nat) : updateSummary noteId ≠ "" := by
  unfold updateSummary
  split
  · exact str_append_ne_empty
      ("Update note heuristic for note " ++ toString (noteId.getD 0)) "."
      (str_append_ne_empty "Update note heuristic for note "
        (toString (noteId.getD 0)) (by decide))
  · decide

lemma deleteSummary_ne_empty (noteId : Option Nat) : deleteSummary noteId ≠ "" := by
  unfold deleteSummary
  split
  · exact str_append_ne_empty
      ("Delete note heuristic for note " ++ toString (noteId.getD 0)) "."
      (str_append_ne_empty "Delete note heuristic for note "
        (toString (noteId.getD 0)) (by decide))
  · decide

lemma readSummary_ne_empty (noteId : Option Nat) : readSummary noteId ≠ "" := by
  unfold readSummary
  split
  · exact str_append_ne_empty
      ("Read note heuristic for note " ++ toString (noteId.getD 0)) "."
      (str_append_ne_empty "Read note heuristic for note "
        (toString (noteId.getD 0)) (by decide))
  · decide

/-- Every normally-returned fallback dict is a `baseIntent` with the
extracted note id, an action among the five schema actions, and a
non-empty summary. -/
lemma fallback_shape (q : String) (fb : List (String × Json))
    (hfb : fallbackParse q = .ok fb) :
    ∃ a t m s, fb = baseIntent (extractNoteId (lowerS q).toList) a t m s
      ∧ a ∈ fiveActions ∧ s ≠ "" := by
  unfold fallbackParse at hfb
  dsimp only at hfb
  split at hfb
  · split at hfb
    · split at hfb
      · injection hfb with h; subst h
        exact ⟨_, _, _, _, rfl, by decide, by decide⟩
      · exact Except.noConfusion hfb
    · injection hfb with h; subst h
      exact ⟨_, _, _, _, rfl, by decide, by decide⟩
  · split at hfb
    · injection hfb with h; subst h
      exact ⟨_, _, _, _, rfl, by decide, updateSummary_ne_empty _⟩
    · split at hfb
      · injection hfb with h; subst h
        exact ⟨_, _, _, _, rfl, by decide, deleteSummary_ne_empty _⟩
      · split at hfb
        · injection hfb with h; subst h
          exact ⟨_, _, _, _, rfl, by split <;> decide, readSummary_ne_empty _⟩
        · split at hfb
          · injection hfb with h; subst h
            exact ⟨_, _, _, _, rfl, by decide, by decide⟩
          · injection hfb with h; subst h
            exact ⟨_, _, _, _, rfl, by decide, by decide⟩

/-- The action of a normally-returned fallback dict is selected by the
keyword classes in source order. -/
lemma fallback_action (q : String) (fb : List (String × Json))
    (hfb : fallbackParse q = .ok fb) :
    jget fb "action" (.jstr "list")
      = .jstr (
        if hasAnyKw (lowerS q) createKws then "create"
        else if hasAnyKw (lowerS q) updateKws then "update"
        else if hasAnyKw (lowerS q) deleteKws then "delete"
        else if hasAnyKw (lowerS q) readKws then
          (if noteIdTruthy (extractNoteId (lowerS q).toList) then "read" else "list")
        else "list") := by
  unfold fallbackParse at hfb
  dsimp only at hfb
  split at hfb
  · split at hfb
    · split at hfb
      · injection hfb with h; subst h; simp [*, jget_baseIntent_action]
      · exact Except.noConfusion hfb
    · injection hfb with h; subst h; simp [*, jget_baseIntent_action]
  · split at hfb
    · injection hfb with h; subst h; simp [*, jget_baseIntent_action]
    · split at hfb
      · injection hfb with h; subst h; simp [*, jget_baseIntent_action]
      · split at hfb
        · injection hfb with h; subst h; simp [*, jget_baseIntent_action]
        · split at hfb
          · injection hfb with h; subst h; simp [*, jget_baseIntent_action]
          · injection hfb with h; subst h; simp [*, jget_baseIntent_action]

/-- C9: note-id extraction is total: the `int()` parse failure branch is
caught by the `except ValueError` clause and mapped to "absent", so the
extractor never lets an exception escape, for any input, and its value is
the total function `extractNoteId`. -/
theorem claim_C9 (text : List Char) :
    extractNoteIdTry text = .ok (extractNoteId text) := by
  unfold extractNoteIdTry extractNoteId
  cases firstNoteMatch text with
  | none => rfl
  | some ds =>
    cases h : parseDigits ds with
    | none => simp [h]
    | some n => simp [h]

/-- C8 (as stated) is false: the text `"note 77"` contains the substring
`"note 7"`, yet the extracted note id of the classifier is 77, because the
regex captures the maximal digit run of the first match. -/
theorem claim_C8_counterexample :
    containsSub "note 77" "note 7" = true ∧
    extractNoteId (lowerS "note 77").toList = some 77 ∧
    fallbackParse "note 77" = .ok (baseIntent (some 77) "list" .jnull .jnull
      "Fallback keyword interpretation; please verify intent.") ∧
    (some 77 : Option Nat) ≠ some 7 :=
  ⟨rfl, rfl, rfl, by decide⟩

/-- C8 (amended): when the occurrence of `note 7` / `note#7` / `note-7`
is the start of the text (hence the first match of the regex) and the digit 7
is not followed by a further digit, the extracted note id equals 7. -/
theorem claim_C8 (sep : Char) (suf : List Char)
    (hsep : sep = ' ' ∨ sep = '#' ∨ sep = '-')
    (hsuf : ∀ c, suf.head? = some c → c.isDigit = false) :
    extractNoteId ('n' :: 'o' :: 't' :: 'e' :: sep :: '7' :: suf) = some 7 := by
  have hsepc : isSepChar sep = true := by
    rcases hsep with h | h | h <;> subst h <;> decide
  have h7 : suf.takeWhile Char.isDigit = [] := by
    cases suf with
    | nil => rfl
    | cons c cs => simp [List.takeWhile_cons, hsuf c rfl]
  have hsd : sepsThenDigits (sep :: '7' :: suf)
      = some ('7' :: suf.takeWhile Char.isDigit) := by
    rw [sepsThenDigits, if_pos hsepc, sepsThenDigits, if_neg (by decide),
      if_pos (by decide), List.takeWhile_cons, if_pos (by decide)]
  have hfm : firstNoteMatch ('n' :: 'o' :: 't' :: 'e' :: sep :: '7' :: suf)
      = some ('7' :: suf.takeWhile Char.isDigit) := by
    rw [firstNoteMatch]
    simp [hsd]
  unfold extractNoteId
  rw [hfm, h7]
  rfl

/-- Witness for C8: the concrete text `"note 7"`. -/
theorem claim_C8_witness : extractNoteId (String.toList "note 7") = some 7 :=
  claim_C8 ' ' [] (Or.inl rfl) (fun _ hc => nomatch hc)

/-- C1: the contract "the fallback classifier and `interpret` never raise"
is broken by the code: on `"Add a note ABOUT taxes"` the classifier takes
the create branch, finds `" about "` in the lowercased text, but then
splits the ORIGINAL (mixed-case) text on lowercase `" about "`, finds no
separator, and `split(...)[1]` raises `IndexError`, which `interpret`
propagates (the fallback runs inside the `except` handler). -/
theorem claim_C1 :
    fallbackParse "Add a note ABOUT taxes" = .error () ∧
    interpret .exn "Add a note ABOUT taxes" = .error () :=
  ⟨rfl, rfl⟩

/-- C2 (amended): whenever the LLM stage raises (network error, timeout,
non-2xx, non-JSON body) or returns non-object JSON, `interpret` returns
exactly the fallback classification of the same text, wrapped as
`AgentResult(action=fb.get("action", "list"), payload=fb)` with no part of
the failed attempt kept; but an object reply is accepted without schema
validation. -/
theorem claim_C2 (q : String) (fb : List (String × Json))
    (hfb : fallbackParse q = .ok fb) :
    interpret .exn q = .ok ⟨jget fb "action" (.jstr "list"), .jobj fb⟩ ∧
    ∀ j : Json, (∀ fs, j ≠ .jobj fs) →
      interpret (.parsed j) q = .ok ⟨jget fb "action" (.jstr "list"), .jobj fb⟩ := by
  constructor
  · unfold interpret fallbackAgentResult
    rw [hfb]
  · intro j hj
    cases j with
    | jobj fs => exact absurd rfl (hj fs)
    | jnull => unfold interpret fallbackAgentResult; rw [hfb]
    | jbool b => unfold interpret fallbackAgentResult; rw [hfb]
    | jnum n => unfold interpret fallbackAgentResult; rw [hfb]
    | jstr s => unfold interpret fallbackAgentResult; rw [hfb]
    | jarr l => unfold interpret fallbackAgentResult; rw [hfb]

/-- Witness for C2 at `"delete note 3"` with a string (non-object) reply. -/
theorem claim_C2_witness :
    interpret .exn "delete note 3"
      = .ok ⟨jget (baseIntent (some 3) "delete" .jnull .jnull
          "Delete note heuristic for note 3.") "action" (.jstr "list"),
        .jobj (baseIntent (some 3) "delete" .jnull .jnull
          "Delete note heuristic for note 3.")⟩ ∧
    interpret (.parsed (.jstr "not json-object")) "delete note 3"
      = .ok ⟨jget (baseIntent (some 3) "delete" .jnull .jnull
          "Delete note heuristic for note 3.") "action" (.jstr "list"),
        .jobj (baseIntent (some 3) "delete" .jnull .jnull
          "Delete note heuristic for note 3.")⟩ :=
  ⟨(claim_C2 "delete note 3" _ rfl).1,
   (claim_C2 "delete note 3" _ rfl).2 (.jstr "not json-object")
     (fun _ h => nomatch h)⟩

/-- C2 (as stated) is false for the "reply not matching the Intent
schema" failure mode: a JSON object reply that lacks every schema field
except `action` is not a failure for the code — `interpret` returns it
unchanged instead of substituting the fallback classification (which on
this text is the delete intent). -/
theorem claim_C2_counterexample :
    interpret (.parsed (.jobj [("action", Json.jstr "update")])) "delete note 3"
      = .ok ⟨.jstr "update", .jobj [("action", Json.jstr "update")]⟩ ∧
    interpret .exn "delete note 3"
      = .ok ⟨.jstr "delete", .jobj (baseIntent (some 3) "delete" .jnull .jnull
          "Delete note heuristic for note 3.")⟩ ∧
    (Json.jstr "update") ≠ .jstr "delete" :=
  ⟨rfl, rfl, by simp⟩

/-- C6 (amended, fallback side): every Intent produced through the
fallback path has an action among the five enumerated values and a
non-empty summary. -/
theorem claim_C6 (q : String) (fb : List (String × Json))
    (hfb : fallbackParse q = .ok fb) :
    (∃ a, jget fb "action" (.jstr "list") = .jstr a ∧ a ∈ fiveActions) ∧
    (∃ s, jget fb "summary" (.jstr "") = .jstr s ∧ s ≠ "") := by
  obtain ⟨a, t, m, s, rfl, ha, hs⟩ := fallback_shape q fb hfb
  exact ⟨⟨a, rfl, ha⟩, ⟨s, rfl, hs⟩⟩

/-- Witness for C6: the keyword-free text `"hmm"` (action defaults to
`list`). -/
theorem claim_C6_witness :
    (∃ a, jget (baseIntent none "list" .jnull .jnull
        "Fallback keyword interpretation; please verify intent.")
        "action" (.jstr "list") = .jstr a ∧ a ∈ fiveActions) ∧
    (∃ s, jget (baseIntent none "list" .jnull .jnull
        "Fallback keyword interpretation; please verify intent.")
        "summary" (.jstr "") = .jstr s ∧ s ≠ "") :=
  claim_C6 "hmm" _ rfl

/-- C6 (as stated) is false on the LLM path: an object reply with a
non-schema action is passed through unvalidated, and a reply without a
`summary` key yields the empty summary at response time
(`payload.get("summary", "")`). -/
theorem claim_C6_counterexample :
    interpret (.parsed (.jobj [("action", Json.jstr "fly")])) "x"
      = .ok ⟨.jstr "fly", .jobj [("action", Json.jstr "fly")]⟩ ∧
    ("fly" ∉ fiveActions) ∧
    jget [("action", Json.jstr "fly")] "summary" (.jstr "") = .jstr "" :=
  ⟨rfl, by decide, rfl⟩

/-- C7 (amended): whenever the fallback classifier returns normally, the
action is that of the first-matching keyword class in the fixed priority
order create > update > delete > read > list (read degrading to list
without a truthy note id); the classifier fails to return only through
the mixed-case `" about "` IndexError slip. -/
theorem claim_C7 (q : String) (fb : List (String × Json))
    (hfb : fallbackParse q = .ok fb) :
    (hasAnyKw (lowerS q) createKws = true →
      jget fb "action" (.jstr "list") = .jstr "create") ∧
    (hasAnyKw (lowerS q) createKws = false →
      hasAnyKw (lowerS q) updateKws = true →
      jget fb "action" (.jstr "list") = .jstr "update") ∧
    (hasAnyKw (lowerS q) createKws = false →
      hasAnyKw (lowerS q) updateKws = false →
      hasAnyKw (lowerS q) deleteKws = true →
      jget fb "action" (.jstr "list") = .jstr "delete") ∧
    (hasAnyKw (lowerS q) createKws = false →
      hasAnyKw (lowerS q) updateKws = false →
      hasAnyKw (lowerS q) deleteKws = false →
      hasAnyKw (lowerS q) readKws = true →
      jget fb "action" (.jstr "list") = .jstr
        (if noteIdTruthy (extractNoteId (lowerS q).toList) then "read" else "list")) ∧
    (hasAnyKw (lowerS q) createKws = false →
      hasAnyKw (lowerS q) updateKws = false →
      hasAnyKw (lowerS q) deleteKws = false →
      hasAnyKw (lowerS q) readKws = false →
      hasAnyKw (lowerS q) listKws = true →
      jget fb "action" (.jstr "list") = .jstr "list") := by
  have hm := fallback_action q fb hfb
  refine ⟨fun h1 => ?_, fun h1 h2 => ?_, fun h1 h2 h3 => ?_,
    fun h1 h2 h3 h4 => ?_, fun h1 h2 h3 h4 h5 => ?_⟩ <;>
    rw [hm] <;> simp [*]

/-- Witness for C7: `"create and delete stuff"` contains both a create
and a delete keyword and classifies as create. -/
theorem claim_C7_witness :
    jget (baseIntent none "create" (.jstr "General")
        (.jstr "create and delete stuff") "Created note using heuristic.")
      "action" (.jstr "list") = .jstr "create" :=
  (claim_C7 "create and delete stuff" _ rfl).1 rfl

/-- C7 (as stated) is false: `"CREATE and delete it ABOUT x"` contains
keywords of both the create and the delete classes, yet the classifier
raises (the `" about "` IndexError slip) instead of selecting create. -/
theorem claim_C7_counterexample :
    hasAnyKw (lowerS "CREATE and delete it ABOUT x") createKws = true ∧
    hasAnyKw (lowerS "CREATE and delete it ABOUT x") deleteKws = true ∧
    fallbackParse "CREATE and delete it ABOUT x" = .error () :=
  ⟨rfl, rfl, rfl⟩

/-- C3: with a present, non-null, non-zero integer `note_id` (and a
well-formed `filters` object, as every Intent has), resolution returns
the first owned note with exactly that id — independent of any topic
filter — and NotFound exactly when no owned note has that id. -/
theorem claim_C3 (userId : Nat) (fields : List (String × Json))
    (notes : List Note) (k : Int)
    (hid : jget fields "note_id" .jnull = .jnum k) (hk : k ≠ 0)
    (ff : List (String × Json))
    (hff : jget fields "filters" (.jobj []) = .jobj ff) :
    resolveNote userId fields notes
      = .ok (notes.find? fun n => n.user_id == userId && sqlIdEq (.jnum k) n.note_id) ∧
    (∀ n, (notes.find? fun n => n.user_id == userId && sqlIdEq (.jnum k) n.note_id)
        = some n → n ∈ notes ∧ n.user_id = userId ∧ (n.note_id : Int) = k) ∧
    ((notes.find? fun n => n.user_id == userId && sqlIdEq (.jnum k) n.note_id)
        = none ↔ ∀ n ∈ notes, n.user_id = userId → (n.note_id : Int) ≠ k) := by
  refine ⟨by simp [resolveNote, hid, hff, jtruthy, hk], ?_, ?_⟩
  · intro n hn
    have hmem := List.mem_of_find?_eq_some hn
    have hp := List.find?_some hn
    simp only [Bool.and_eq_true, beq_iff_eq, sqlIdEq] at hp
    exact ⟨hmem, hp.1, hp.2.symm⟩
  · rw [List.find?_eq_none]
    constructor
    · intro h n hn hu hkeq
      exact h n hn (by simp [sqlIdEq, hu, hkeq])
    · intro h n hn hp
      simp only [Bool.and_eq_true, beq_iff_eq, sqlIdEq] at hp
      exact (h n hn hp.1) hp.2.symm

/-- Witness for C3: id 5 resolves among a singleton store. -/
theorem claim_C3_witness :
    resolveNote 1 [("note_id", Json.jnum 5), ("filters", Json.jobj [])]
      [⟨5, 1, "alpha", "msg", 0⟩] = .ok (some ⟨5, 1, "alpha", "msg", 0⟩) := by
  have h := (claim_C3 1 [("note_id", Json.jnum 5), ("filters", Json.jobj [])]
    [⟨5, 1, "alpha", "msg", 0⟩] 5 rfl (by decide) [] rfl).1
  rw [h]
  rfl

lemma likeMatch_percent_any (t : List Char) : likeMatch ['%'] t = true := by
  induction t with
  | nil => simp [likeMatch]
  | cons c rest ih => simp [likeMatch, ih]

lemma likeMatch_append_percent (p : List Char)
    (hp : ∀ c ∈ p, c ≠ '%' ∧ c ≠ '_') (t : List Char) :
    likeMatch (p ++ ['%']) t = p.isPrefixOf t := by
  induction p generalizing t with
  | nil => simp [likeMatch_percent_any, List.isPrefixOf]
  | cons c ps ih =>
    obtain ⟨hc1, hc2⟩ := hp c (List.mem_cons_self c ps)
    have hps : ∀ d ∈ ps, d ≠ '%' ∧ d ≠ '_' :=
      fun d hd => hp d (List.mem_cons_of_mem c hd)
    cases t with
    | nil => simp [likeMatch, hc1, List.isPrefixOf]
    | cons d rest => simp [likeMatch, hc1, hc2, ih hps, List.isPrefixOf]

/-- A LIKE pattern of the shape percent-literal-percent, with a
wildcard-free middle, matches exactly the strings containing the middle
as a substring. -/
lemma likeMatch_contains (p : List Char)
    (hp : ∀ c ∈ p, c ≠ '%' ∧ c ≠ '_') (s : List Char) :
    likeMatch ('%' :: (p ++ ['%'])) s = containsSubL p s := by
  induction s with
  | nil =>
    simp [likeMatch, containsSubL, likeMatch_append_percent p hp]
    cases p <;> simp [List.isPrefixOf]
  | cons c rest ih =>
    simp [likeMatch, containsSubL, likeMatch_append_percent p hp]
    rw [ih]

/-- C4 (amended): with `note_id` absent/falsy and a well-formed
`filters` object: a present non-empty string topic filter selects the
first owned note whose lowercased topic matches the SQL LIKE pattern
percent-filter-percent, with `%` and `_` active as wildcards (NotFound
iff no owned note matches); for filters without wildcard characters this
coincides exactly with case-insensitive substring containment, as
originally stated; an absent or falsy topic filter always yields
NotFound. -/
theorem claim_C4 (userId : Nat) (fields : List (String × Json))
    (notes : List Note)
    (hid : jtruthy (jget fields "note_id" .jnull) = false)
    (ff : List (String × Json))
    (hff : jget fields "filters" (.jobj []) = .jobj ff) :
    (∀ s : String, jget ff "topic" .jnull = .jstr s → s ≠ "" →
      resolveNote userId fields notes
        = .ok (notes.find? fun n => n.user_id == userId && ilikeContains n.topic s) ∧
      ((notes.find? fun n => n.user_id == userId && ilikeContains n.topic s)
          = none ↔ ∀ n ∈ notes, n.user_id = userId →
            ilikeContains n.topic s = false)) ∧
    (∀ s topic : String, (∀ c ∈ (lowerS s).toList, c ≠ '%' ∧ c ≠ '_') →
      ilikeContains topic s = containsSub (lowerS topic) (lowerS s)) ∧
    (jtruthy (jget ff "topic" .jnull) = false →
      resolveNote userId fields notes = .ok none) := by
  refine ⟨?_, ?_, ?_⟩
  · intro s hs hne
    have ht : jtruthy (.jstr s) = true := by simp [jtruthy, hne]
    constructor
    · simp [resolveNote, hff, hid, hs, ht, pyStr]
    · rw [List.find?_eq_none]
      constructor
      · intro h n hn hu
        cases hil : ilikeContains n.topic s with
        | false => rfl
        | true => exact absurd (by simp [hu, hil]) (h n hn)
      · intro h n hn hp
        simp only [Bool.and_eq_true, beq_iff_eq] at hp
        obtain ⟨hu, hil⟩ := hp
        rw [h n hn hu] at hil
        exact Bool.noConfusion hil
  · intro s topic hw
    unfold ilikeContains containsSub
    exact likeMatch_contains _ hw _
  · intro h
    simp [resolveNote, hff, hid, h]

/-- C4 (as stated) is false: the filter value is interpolated into the
LIKE pattern unescaped, so `%` stays active as a wildcard: the filter
`"a%b"` resolves the note with topic `"a to b"`, although that topic
does not contain `"a%b"` as a (case-insensitive) substring, where the
claim predicts NotFound. -/
theorem claim_C4_counterexample :
    resolveNote 1 [("note_id", Json.jnull),
        ("filters", Json.jobj [("topic", Json.jstr "a%b")])]
      [⟨1, 1, "a to b", "m", 0⟩] = .ok (some ⟨1, 1, "a to b", "m", 0⟩) ∧
    containsSub (lowerS "a to b") (lowerS "a%b") = false := by
  constructor
  · simp [resolveNote, jget, List.lookup, jtruthy, pyStr, List.find?,
      ilikeContains, lowerS, likeMatch]
  · decide

/-- Witness for C4: filter `"Work"` matches topic `"Homework"`, and a
null topic filter yields NotFound. -/
theorem claim_C4_witness :
    resolveNote 1 [("note_id", Json.jnull),
        ("filters", Json.jobj [("topic", Json.jstr "Work")])]
      [⟨1, 1, "Homework", "m", 0⟩] = .ok (some ⟨1, 1, "Homework", "m", 0⟩) ∧
    resolveNote 1 [("note_id", Json.jnull),
        ("filters", Json.jobj [("topic", Json.jnull)])]
      [⟨1, 1, "Homework", "m", 0⟩] = .ok none := by
  constructor
  · have h := ((claim_C4 1 [("note_id", Json.jnull),
      ("filters", Json.jobj [("topic", Json.jstr "Work")])]
      [⟨1, 1, "Homework", "m", 0⟩] rfl [("topic", Json.jstr "Work")] rfl).1
      "Work" rfl (by decide)).1
    rw [h]
    simp [List.find?, ilikeContains, lowerS, likeMatch]
  · exact (claim_C4 1 [("note_id", Json.jnull),
      ("filters", Json.jobj [("topic", Json.jnull)])]
      [⟨1, 1, "Homework", "m", 0⟩] rfl [("topic", Json.jnull)] rfl).2.2 rfl

/-- C5: a dry-run update or delete on a resolvable target returns the
pre-mutation serialized note and leaves the store exactly unchanged (the
dry-run check precedes any mutation; nothing is applied and undone). -/
theorem claim_C5 (userId : Nat) (interp : AgentResult) (query : String)
    (now : Nat) (notes : List Note) (fields : List (String × Json)) (n : Note)
    (hp : interp.payload = .jobj fields)
    (ha : interp.action = .jstr "update" ∨ interp.action = .jstr "delete")
    (hres : resolveNote userId fields notes = .ok (some n)) :
    handleNlQuery userId interp query true now notes
      = .ok (.ok interp.action (jget fields "summary" (.jstr ""))
          (.note (serializeNote n)) true, notes) := by
  rcases ha with ha | ha <;>
    simp [handleNlQuery, hp, ha, jeqStr, hres]

/-- Witness for C5: dry-run delete of note 1 leaves the store intact. -/
theorem claim_C5_witness :
    handleNlQuery 7 ⟨.jstr "delete",
        .jobj [("note_id", Json.jnum 1), ("filters", Json.jobj [])]⟩
      "q" true 9 [⟨1, 7, "t", "m", 3⟩]
      = .ok (.ok (.jstr "delete") (.jstr "") (.note ⟨1, "t", "m", 3⟩) true,
          [⟨1, 7, "t", "m", 3⟩]) :=
  claim_C5 7 ⟨.jstr "delete",
      .jobj [("note_id", Json.jnum 1), ("filters", Json.jobj [])]⟩
    "q" 9 [⟨1, 7, "t", "m", 3⟩]
    [("note_id", Json.jnum 1), ("filters", Json.jobj [])]
    ⟨1, 7, "t", "m", 3⟩ rfl (Or.inr rfl) rfl

/-- C10: the dry-run flag does not protect create: a create intent with
dry-run set still appends a fresh note to the store. -/
theorem claim_C10 (userId : Nat) (interp : AgentResult) (query : String)
    (now : Nat) (notes : List Note) (fields : List (String × Json))
    (hp : interp.payload = .jobj fields) (ha : interp.action = .jstr "create") :
    ∃ note : Note, note.user_id = userId ∧
      handleNlQuery userId interp query true now notes
        = .ok (.ok interp.action (jget fields "summary" (.jstr ""))
            (.note (serializeNote note)) true, notes ++ [note]) := by
  refine ⟨⟨nextNoteId notes, userId,
    (if jtruthy (jget fields "topic" .jnull) then
      pyStr (jget fields "topic" .jnull) else "General"),
    (if jtruthy (jget fields "message" .jnull) then
      pyStr (jget fields "message" .jnull) else query),
    now⟩, rfl, ?_⟩
  simp [handleNlQuery, hp, ha, jeqStr]

/-- Witness for C10: a dry-run create on an empty store still inserts. -/
theorem claim_C10_witness :
    ∃ note : Note, note.user_id = 2 ∧
      handleNlQuery 2 ⟨.jstr "create", .jobj []⟩ "buy milk" true 5 []
        = .ok (.ok (Json.jstr "create") (jget [] "summary" (.jstr ""))
            (.note (serializeNote note)) true, [] ++ [note]) :=
  claim_C10 2 ⟨.jstr "create", .jobj []⟩ "buy milk" 5 [] [] rfl rfl

end SmartNotes
